import Mathlib

/-!
Verification of the dog-bot (`src/main.rs`): a shallow embedding of the
breed-name normalizer, the price extractor, the four HTTP fetchers and the
`answer` command handler, together with theorems about the claims of the
specification.

Modelling conventions:
* Rust `String`/`&str` become Lean `String` (with `List Char` as the
  working representation); `f32` prices become `Rat` carrying the value
  of the printed decimal; `HashMap` becomes an association list.
* Network and chat I/O are modelled by an `Env` of oracle responses and a
  trace of `Effect`s that the handler emits; a Rust panic (a failed
  `unwrap`) is modelled by the `panicked` flag of the run result, which
  also truncates the trace at the point of the panic.
-/

/-! ## String transformations -/

/-- The Unicode White_Space property, which is what the Rust predicate
`char::is_whitespace` (used by `str::split_whitespace`) tests. -/
def rsWhitespace (c : Char) : Bool :=
  (0x09 ≤ c.toNat && c.toNat ≤ 0x0D) || c.toNat = 0x20 || c.toNat = 0x85 ||
  c.toNat = 0xA0 || c.toNat = 0x1680 ||
  (0x2000 ≤ c.toNat && c.toNat ≤ 0x200A) ||
  c.toNat = 0x2028 || c.toNat = 0x2029 || c.toNat = 0x202F ||
  c.toNat = 0x205F || c.toNat = 0x3000

/-- One step of splitting on whitespace, consumed by `List.foldr`: the
accumulator is the word currently being built (scanning right to left)
together with the completed words to its right. -/
def splitStep (c : Char) (acc : List Char × List (List Char)) :
    List Char × List (List Char) :=
  if rsWhitespace c then
    ([], if acc.1.isEmpty then acc.2 else acc.1 :: acc.2)
  else
    (c :: acc.1, acc.2)

/-- Model of Rust `str::split_whitespace` on a list of characters:
maximal runs of non-whitespace characters, in order, with no empty
words. -/
def splitWhitespace (l : List Char) : List (List Char) :=
  let p := l.foldr splitStep ([], [])
  if p.1.isEmpty then p.2 else p.1 :: p.2

/-- Model of `Vec::join("/")` on a list of words. -/
def joinSlash : List (List Char) → List Char
  | [] => []
  | [w] => w
  | w :: ws => w ++ '/' :: joinSlash ws

/-- Model of Rust `str::to_lowercase` restricted to its ASCII action
(the basic Latin uppercase letters map down by 32; every other scalar
value relevant here is fixed). -/
def rsToLower (c : Char) : Char :=
  if 65 ≤ c.toNat ∧ c.toNat ≤ 90 then Char.ofNat (c.toNat + 32) else c

/-- The breed-name normalization performed inside
`get_random_dog_from_breed`: lowercase, split on whitespace, reverse the
word order, join with "/", as a function on character lists. -/
def normalizeBreedL (l : List Char) : List Char :=
  joinSlash ((splitWhitespace (l.map rsToLower)).reverse)

/-- The breed-name normalization on `String`s. -/
def normalizeBreed (s : String) : String :=
  ⟨normalizeBreedL s.data⟩

/-- The normalizer as the specification words it: produce a URL path
segment by lowercasing, splitting on whitespace, reversing word order,
and joining with "/". Stated separately so that the agreement of the code
with the spec sentence is a theorem rather than a definition. -/
def specNormalize (s : String) : String :=
  ⟨joinSlash (((splitWhitespace (s.data.map rsToLower))).reverse)⟩

/-! ## Data model: response shapes, commands, environment, effects -/

/-- Embedding of `struct DogResponse<T> { message: T, status: String }`. -/
structure DogResponse (T : Type) where
  message : T
  status : String
deriving DecidableEq

/-- Embedding of `struct GoingeckoCoinValue { usd: f32 }`; the `f32` is
modelled by the rational value of its printed decimal. -/
structure GoingeckoCoinValue where
  usd : Rat
deriving DecidableEq

/-- Embedding of `type BreedsList = HashMap<String, Vec<String>>`, as an
association list in iteration order. -/
abbrev BreedsList := List (String × List String)

/-- The `Command` enum derived by `BotCommands`. -/
inductive Command where
  | Doggo : Command
  | Breed : String → Command
  | Breeds : Command
  | Euro : Command
deriving DecidableEq

/-- The fields of the inbound Telegram `Message` the handler reads:
`message.chat.id` and the sender id of `message.from()` (absent when the
message carries no sender). -/
structure Message where
  chatId : Int
  fromId : Option Int
deriving DecidableEq

/-- Observable actions of one `answer` invocation, in order: the outgoing
HTTP GETs, the `tracing` log lines (the formatted payloads of logged
errors are elided), and the Telegram sends. -/
inductive Effect where
  | httpGet : String → Effect
  | logInfo : String → Effect
  | logError : String → Effect
  | sendPhoto : Int → String → Effect
  | sendMessage : Int → String → Effect
deriving DecidableEq

/-- Oracle for everything outside the process: the response each upstream
GET would produce (`Except.error` being a `reqwest::Error`) and the
outcome of the Telegram send call (`Except.error` being a send failure). -/
structure Env where
  dogFetch : Except Unit (DogResponse String)
  breedsFetch : Except Unit (DogResponse BreedsList)
  euroFetch : Except Unit (List (String × GoingeckoCoinValue))
  sendResult : Except Unit Unit

/-- Result of one `answer` invocation: the emitted effects and whether the
task panicked (a failed `unwrap`); on a panic the trace stops there. When
`panicked` is false the function returned `Ok(())`. -/
structure RunResult where
  effects : List Effect
  panicked : Bool
deriving DecidableEq

/-! ## The HTTP fetchers -/

def dogCeoRandomUrl : String := "https://dog.ceo/api/breeds/image/random"

def breedsListUrl : String := "https://dog.ceo/api/breeds/list/all"

def coingeckoUrl : String :=
  "https://api.coingecko.com/api/v3/simple/price?ids=tether-eurt&vs_currencies=usd"

/-- URL built by `get_random_dog_from_breed` from the normalized name. -/
def breedRequestUrl (breed : String) : String :=
  "https://dog.ceo/api/breed/" ++ normalizeBreed breed ++ "/images/random"

/-- Embedding of `get_random_dog`: one GET, result from the oracle. -/
def get_random_dog (env : Env) :
    List Effect × Except Unit (DogResponse String) :=
  ([Effect.httpGet dogCeoRandomUrl], env.dogFetch)

/-- Embedding of `get_list_of_breeds`: one GET, result from the oracle. -/
def get_list_of_breeds (env : Env) :
    List Effect × Except Unit (DogResponse BreedsList) :=
  ([Effect.httpGet breedsListUrl], env.breedsFetch)

/-- Embedding of `get_random_dog_from_breed`: normalizes the breed into
the URL, then one GET, result from the oracle. -/
def get_random_dog_from_breed (breed : String) (env : Env) :
    List Effect × Except Unit (DogResponse String) :=
  ([Effect.httpGet (breedRequestUrl breed)], env.dogFetch)

/-- Embedding of `HashMap::get` on the association-list model (keys are
unique in a `HashMap`, so first match). -/
def lookupPair (k : String) :
    List (String × GoingeckoCoinValue) → Option GoingeckoCoinValue
  | [] => none
  | (k₁, v) :: rest => if k₁ = k then some v else lookupPair k rest

/-- Embedding of `get_euro_usd`: one GET, then the map lookup at
"tether-eurt" turned into `Ok(Some(usd))` / `Ok(None)`; a transport
error propagates as `Err`. -/
def get_euro_usd (env : Env) : List Effect × Except Unit (Option Rat) :=
  ([Effect.httpGet coingeckoUrl],
    match env.euroFetch with
    | Except.error e => Except.error e
    | Except.ok res =>
      match lookupPair "tether-eurt" res with
      | some euro => Except.ok (some euro.usd)
      | none => Except.ok none)

/-! ## External helpers used by the handler -/

/-- Modelled from the spec: `Url::from_str` comes from the external `url`
crate, not this repository. Restricted model: an absolute `http` or
`https` URL with a nonempty remainder after the scheme parses and
serializes back to itself; any other string (in particular one with no
scheme, such as a bare word) is rejected. -/
def urlFromStr (s : String) : Option String :=
  if "http://".data.isPrefixOf s.data && decide (7 < s.data.length) then
    some s
  else if "https://".data.isPrefixOf s.data && decide (8 < s.data.length) then
    some s
  else none

/-- Rendering of an `f32` by the Rust `Display` trait (`format!`), on the
rational model of the float: an integer prints with no decimal point,
otherwise the shortest decimal expansion prints with no trailing zeros
(every `f32` has a finite decimal expansion; the search bound 60 exceeds
the longest one). -/
def fmtF32 (q : Rat) : String :=
  let sign := if q < 0 then "-" else ""
  let n := q.num.natAbs
  let d := q.den
  if d = 1 then sign ++ toString n
  else
    match (List.range 60).find? (fun k => 10 ^ k % d = 0) with
    | none => sign ++ toString n ++ "/" ++ toString d
    | some k =>
      let scaled := n * (10 ^ k / d)
      let ip := scaled / 10 ^ k
      let fp := scaled % 10 ^ k
      let fps := toString fp
      let pad := String.mk (List.replicate (k - fps.length) '0')
      sign ++ toString ip ++ "." ++ pad ++ fps

/-- The rational 1.07 (= 107/100) in reduced explicit form, so that the
kernel can evaluate functions of its numerator and denominator. -/
def rat107 : Rat := ⟨107, 100, by norm_num, by norm_num⟩

/-- The catalog formatting loop of the `Breeds` branch: for each breed a
header line, then one indented line per sub-breed (`writeln!` to a
`String` cannot fail, so the unwraps there never panic). -/
def formatBreeds (bs : BreedsList) : String :=
  bs.foldl
    (fun msg kv =>
      kv.2.foldl (fun m variant => m ++ "     |> " ++ variant ++ "\n")
        (msg ++ "-│ " ++ kv.1 ++ "\n"))
    ""

/-- The tail of every send in the handler: on `Err` log the send error,
on `Ok` log the success line. -/
def sendOutcomeEffects (env : Env) : List Effect :=
  match env.sendResult with
  | Except.error _ => [Effect.logError "Error while sending message"]
  | Except.ok _ => [Effect.logInfo "Dog sent with success"]

/-- The text sent on the breed-not-found path. -/
def breedNotFoundText (breed : String) : String :=
  "Breed \x27" ++ breed ++ "\x27 doesn\x27t exist"

/-! ## The command handler -/

/-- Embedding of the `answer` function: one branch per `Command` variant,
emitting the effect trace. A `panicked := true` result models a failed
`unwrap` (the `Url::from_str` unwrap on an unparseable URL, and the
`message.from()` unwrap on a sender-less message in the `Breeds` branch);
the trace stops at the panic. -/
def answer (command : Command) (message : Message) (env : Env) : RunResult :=
  match command with
  | Command.Breeds =>
    let r := get_list_of_breeds env
    let pre := Effect.logInfo "Fetching a the list of dogs..." :: r.1
    match r.2 with
    | Except.ok breeds =>
      if breeds.status = "success" then
        match message.fromId with
        | none => ⟨pre, true⟩
        | some uid =>
          ⟨pre ++ Effect.sendMessage uid (formatBreeds breeds.message) ::
              sendOutcomeEffects env, false⟩
      else
        ⟨pre ++ [Effect.logError "Could not get the list of breeds"], false⟩
    | Except.error _ =>
      ⟨pre ++ [Effect.logError "Could not get the list of breeds"], false⟩
  | Command.Doggo =>
    let r := get_random_dog env
    let pre := Effect.logInfo "Fetching a random dog..." :: r.1
    match r.2 with
    | Except.ok dog =>
      if dog.status = "success" then
        match urlFromStr dog.message with
        | none => ⟨pre, true⟩
        | some url =>
          ⟨pre ++ Effect.sendPhoto message.chatId url ::
              sendOutcomeEffects env, false⟩
      else ⟨pre ++ [Effect.logError "Could not find a dog"], false⟩
    | Except.error _ =>
      ⟨pre ++ [Effect.logError "Could not find a dog"], false⟩
  | Command.Euro =>
    let r := get_euro_usd env
    match r.2 with
    | Except.ok (some euro) =>
      ⟨r.1 ++ Effect.sendMessage message.chatId ("$" ++ fmtF32 euro) ::
          sendOutcomeEffects env, false⟩
    | Except.error _ =>
      ⟨r.1 ++ [Effect.logError "Could not fetch the value of Euro"], false⟩
    | Except.ok none => ⟨r.1, false⟩
  | Command.Breed breed =>
    let r := get_random_dog_from_breed breed env
    let pre :=
      Effect.logInfo ("Fetching a random dog of breed " ++ breed ++ "...") ::
        r.1
    match r.2 with
    | Except.ok dog =>
      if dog.status = "success" then
        match urlFromStr dog.message with
        | none => ⟨pre, true⟩
        | some url =>
          ⟨pre ++ Effect.sendPhoto message.chatId url ::
              sendOutcomeEffects env, false⟩
      else
        ⟨pre ++ [Effect.logError "Could not find a dog",
            Effect.sendMessage message.chatId (breedNotFoundText breed)],
          false⟩
    | Except.error _ =>
      ⟨pre ++ [Effect.logError "Could not find a dog"], false⟩

/-! ## Effect classifiers -/

/-- Is the effect an outbound chat send (photo or text)? -/
def isSendEffect : Effect → Bool
  | Effect.sendPhoto _ _ => true
  | Effect.sendMessage _ _ => true
  | _ => false

/-- Is the effect a photo send? -/
def isSendPhoto : Effect → Bool
  | Effect.sendPhoto _ _ => true
  | _ => false

/-- Is the effect a text-message send? -/
def isSendMessage : Effect → Bool
  | Effect.sendMessage _ _ => true
  | _ => false

/-- Is the effect an error log line? -/
def isLogError : Effect → Bool
  | Effect.logError _ => true
  | _ => false

/-- Is the effect the log line recording a failed send? -/
def isSendErrorLog : Effect → Bool
  | Effect.logError s => s = "Error while sending message"
  | _ => false

/-- Do the success responses of the dog-fetch oracle carry a parseable
URL? (The side condition under which the photo-path unwrap cannot
fire.) -/
def dogUrlParses (env : Env) : Bool :=
  match env.dogFetch with
  | Except.ok dog =>
    dog.status != "success" || (urlFromStr dog.message).isSome
  | Except.error _ => true

/-- Does the inbound message carry a sender whenever the catalog path
would read it? -/
def senderPresent (m : Message) (env : Env) : Bool :=
  match env.breedsFetch with
  | Except.ok breeds => breeds.status != "success" || m.fromId.isSome
  | Except.error _ => true

/-! ## Concrete fixtures -/

/-- A message from chat 7 whose sender is user 3. -/
def msgA : Message := ⟨7, some 3⟩

/-- A message that carries no sender (e.g. a channel post). -/
def msgNoFrom : Message := ⟨7, none⟩

/-- Successful dog fetch with a parseable photo URL; sends succeed. -/
def envA : Env :=
  ⟨Except.ok ⟨"http://x/y.jpg", "success"⟩, Except.error (), Except.error (),
    Except.ok ()⟩

/-- Price-feed oracle answering with the 1.07 quote at "tether-eurt". -/
def envEuro107 : Env :=
  ⟨Except.error (), Except.error (),
    Except.ok [("tether-eurt", ⟨rat107⟩)], Except.ok ()⟩

/-- Price-feed oracle whose map lacks the "tether-eurt" key. -/
def envEuroMissing : Env :=
  ⟨Except.error (), Except.error (),
    Except.ok [("bitcoin", ⟨rat107⟩)], Except.ok ()⟩

/-- Success responses whose photo URL does not parse, paired with a
catalog response that needs a sender. -/
def envBadUrl : Env :=
  ⟨Except.ok ⟨"not a url", "success"⟩, Except.ok ⟨[], "success"⟩,
    Except.error (), Except.ok ()⟩

/-- Catalog oracle succeeding with one breed; sends succeed. -/
def envBreedsOk : Env :=
  ⟨Except.error (), Except.ok ⟨[("hound", ["afghan"])], "success"⟩,
    Except.error (), Except.ok ()⟩

/-- Breed fetch succeeded with a failure status; the subsequent send of
the not-found text fails as well. -/
def envBreedNotFound : Env :=
  ⟨Except.ok ⟨"no dog", "error"⟩, Except.error (), Except.error (),
    Except.error ()⟩

/-- Well-formed responses carrying a non-"success" status sentinel. -/
def envFail : Env :=
  ⟨Except.ok ⟨"u", "error"⟩, Except.ok ⟨[], "error"⟩, Except.error (),
    Except.ok ()⟩

/-- Dog fetch succeeds with a good URL but the send fails. -/
def envSendFail : Env :=
  ⟨Except.ok ⟨"http://x/y.jpg", "success"⟩, Except.error (),
    Except.error (), Except.error ()⟩

/-! ## Sanity checks of the embedding -/

example : normalizeBreed "Blue heeler" = "heeler/blue" := by decide
example : normalizeBreed "Border Collie" = "collie/border" := by decide
example : normalizeBreed "Husky" = "husky" := by decide
example : normalizeBreed "" = "" := by decide
example : normalizeBreed "   " = "" := by decide
example : normalizeBreed "a b c" = "c/b/a" := by decide

example : fmtF32 rat107 = "1.07" := by decide
example : fmtF32 (⟨1, 1, by norm_num, by norm_num⟩ : Rat) = "1" := by decide
example : fmtF32 (⟨1, 2, by norm_num, by norm_num⟩ : Rat) = "0.5" := by decide

example : answer Command.Doggo msgA envA =
    ⟨[Effect.logInfo "Fetching a random dog...", Effect.httpGet dogCeoRandomUrl,
      Effect.sendPhoto 7 "http://x/y.jpg",
      Effect.logInfo "Dog sent with success"], false⟩ := by decide

example : answer (Command.Breed "Blue Heeler") msgA envA =
    ⟨[Effect.logInfo "Fetching a random dog of breed Blue Heeler...",
      Effect.httpGet "https://dog.ceo/api/breed/heeler/blue/images/random",
      Effect.sendPhoto 7 "http://x/y.jpg",
      Effect.logInfo "Dog sent with success"], false⟩ := by decide

theorem rat107_eq : rat107 = 1.07 := by
  rw [rat107, Rat.mk'_eq_divInt, Rat.divInt_eq_div]
  norm_num

/-! ## Generic handler lemmas -/

/-- The log line appended after a send is never itself a send. -/
theorem sendOutcome_no_sends (env : Env) :
    (sendOutcomeEffects env).filter isSendEffect = [] ∧
    (sendOutcomeEffects env).filter isSendPhoto = [] ∧
    (sendOutcomeEffects env).filter isSendMessage = [] := by
  unfold sendOutcomeEffects
  rcases env.sendResult with e | u <;>
    simp [isSendEffect, isSendPhoto, isSendMessage]

/-- Every run of the `Breed` branch issues the GET to the normalized
breed URL, whatever the oracle answers. -/
theorem breed_httpGet_mem (b : String) (m : Message) (env : Env) :
    Effect.httpGet (breedRequestUrl b) ∈
      (answer (Command.Breed b) m env).effects := by
  obtain ⟨df, bf, ef, sr⟩ := env
  rcases df with e | dog
  · simp [answer, get_random_dog_from_breed]
  · by_cases h : dog.status = "success"
    · rcases hu : urlFromStr dog.message with _ | url <;>
        simp [answer, get_random_dog_from_breed, h, hu]
    · simp [answer, get_random_dog_from_breed, h]

/-! ## C1: the normalizer and the breed request URL -/

/-- C1: the breed-name normalizer lowercases, splits on whitespace,
reverses the word order and joins with "/" (agreeing with the spec-side
`specNormalize`); "Border Collie" normalizes to "collie/border"; and the
`breed` command issues its upstream GET to
`https://dog.ceo/api/breed/{segment}/images/random`, in particular for
"Blue Heeler" to `.../breed/heeler/blue/images/random`. -/
theorem C1_breed_normalization :
    (∀ s : String, normalizeBreed s = specNormalize s) ∧
    normalizeBreed "Border Collie" = "collie/border" ∧
    normalizeBreed "Blue Heeler" = "heeler/blue" ∧
    (∀ (b : String) (m : Message) (env : Env),
      Effect.httpGet
          ("https://dog.ceo/api/breed/" ++ normalizeBreed b ++
            "/images/random") ∈
        (answer (Command.Breed b) m env).effects) ∧
    (∀ (m : Message) (env : Env),
      Effect.httpGet "https://dog.ceo/api/breed/heeler/blue/images/random" ∈
        (answer (Command.Breed "Blue Heeler") m env).effects) := by
  refine ⟨fun s => rfl, by decide, by decide, fun b m env => ?_, fun m env => ?_⟩
  · exact breed_httpGet_mem b m env
  · have h := breed_httpGet_mem "Blue Heeler" m env
    have he : breedRequestUrl "Blue Heeler" =
        "https://dog.ceo/api/breed/heeler/blue/images/random" := by decide
    rwa [he] at h

/-! ## C2: the price extractor -/

/-- C2: the price extractor returns the usd value at key "tether-eurt"
when present, `Ok(None)` when the key is missing, and never an error
result for a missing key (an `Err` can only come from the transport,
excluded by the hypothesis that the fetch returned a map). -/
theorem C2_price_extractor (env : Env)
    (pm : List (String × GoingeckoCoinValue))
    (h : env.euroFetch = Except.ok pm) :
    (∀ v, lookupPair "tether-eurt" pm = some v →
      (get_euro_usd env).2 = Except.ok (some v.usd)) ∧
    (lookupPair "tether-eurt" pm = none →
      (get_euro_usd env).2 = Except.ok none) ∧
    ∀ e, (get_euro_usd env).2 ≠ Except.error e := by
  have hg : (get_euro_usd env).2 =
      match lookupPair "tether-eurt" pm with
      | some euro => Except.ok (some euro.usd)
      | none => Except.ok none := by
    simp [get_euro_usd, h]
  rcases hl : lookupPair "tether-eurt" pm with _ | v₀ <;> rw [hl] at hg <;>
    exact ⟨fun v hv => by simp_all, fun hn => by simp_all,
      fun e he => by simp_all⟩

theorem C2_price_extractor_witness :
    (get_euro_usd envEuro107).2 = Except.ok (some rat107) ∧
    (get_euro_usd envEuroMissing).2 = Except.ok none :=
  ⟨(C2_price_extractor envEuro107 [("tether-eurt", ⟨rat107⟩)] rfl).1
      ⟨rat107⟩ (by decide),
    (C2_price_extractor envEuroMissing [("bitcoin", ⟨rat107⟩)] rfl).2.1
      (by decide)⟩

/-! ## C3: non-success responses never ship their payload -/

/-- C3: a response whose status sentinel is not "success" never results
in its payload (its message field) being sent: the doggo and breeds
branches send nothing at all, and the breed branch sends no photo and at
most the fixed not-found text, which is built from the breed argument,
not from the response. (The euro response carries no status sentinel, so
the claim is vacuous for that command.) -/
theorem C3_nonsuccess_failure_path (m : Message) (env : Env)
    (dog : DogResponse String) (breeds : DogResponse BreedsList)
    (hd : env.dogFetch = Except.ok dog) (hds : dog.status ≠ "success")
    (hb : env.breedsFetch = Except.ok breeds)
    (hbs : breeds.status ≠ "success") :
    (answer Command.Doggo m env).effects.filter isSendEffect = [] ∧
    (answer Command.Breeds m env).effects.filter isSendEffect = [] ∧
    ∀ b : String,
      (answer (Command.Breed b) m env).effects.filter isSendPhoto = [] ∧
      (answer (Command.Breed b) m env).effects.filter isSendMessage ⊆
        [Effect.sendMessage m.chatId (breedNotFoundText b)] := by
  obtain ⟨df, bf, ef, sr⟩ := env
  simp only [Env.dogFetch] at hd
  simp only [Env.breedsFetch] at hb
  subst hd
  subst hb
  refine ⟨?_, ?_, fun b => ⟨?_, ?_⟩⟩ <;>
    simp [answer, get_random_dog, get_list_of_breeds,
      get_random_dog_from_breed, hds, hbs, isSendEffect, isSendPhoto,
      isSendMessage, List.filter]

theorem C3_nonsuccess_witness :
    (answer Command.Doggo msgA envFail).effects.filter isSendEffect = [] ∧
    (answer Command.Breeds msgA envFail).effects.filter isSendEffect = [] ∧
    (answer (Command.Breed "x") msgA envFail).effects.filter isSendPhoto
      = [] := by
  have h := C3_nonsuccess_failure_path msgA envFail ⟨"u", "error"⟩
    ⟨[], "error"⟩ rfl (by decide) rfl (by decide)
  exact ⟨h.1, h.2.1, (h.2.2 "x").1⟩

/-! ## C4: panics of the handler -/

/-- C4 counterexample: the handler does not always complete normally.
With a success response whose message "not a url" is not a parseable URL
the `doggo` branch panics at the `Url::from_str` unwrap, and with an
inbound message that has no sender the `breeds` branch panics at the
`message.from()` unwrap. -/
theorem C4_counterexample :
    (answer Command.Doggo msgA envBadUrl).panicked = true ∧
    (answer Command.Breeds msgNoFrom envBadUrl).panicked = true := by
  decide

/-- Under the two provisos the handler never panics, whatever the fetch
and send outcomes. -/
theorem answer_no_panic (c : Command) (m : Message) (env : Env)
    (h₁ : dogUrlParses env = true) (h₂ : senderPresent m env = true) :
    (answer c m env).panicked = false := by
  obtain ⟨df, bf, ef, sr⟩ := env
  simp only [dogUrlParses] at h₁
  simp only [senderPresent] at h₂
  cases c with
  | Doggo =>
    rcases df with e | dog
    · simp [answer, get_random_dog]
    · by_cases hs : dog.status = "success"
      · simp only [hs] at h₁
        rcases hu : urlFromStr dog.message with _ | url
        · rw [hu] at h₁; simp at h₁
        · simp [answer, get_random_dog, hs, hu]
      · simp [answer, get_random_dog, hs]
  | Breed b =>
    rcases df with e | dog
    · simp [answer, get_random_dog_from_breed]
    · by_cases hs : dog.status = "success"
      · simp only [hs] at h₁
        rcases hu : urlFromStr dog.message with _ | url
        · rw [hu] at h₁; simp at h₁
        · simp [answer, get_random_dog_from_breed, hs, hu]
      · simp [answer, get_random_dog_from_breed, hs]
  | Breeds =>
    rcases bf with e | breeds
    · simp [answer, get_list_of_breeds]
    · by_cases hs : breeds.status = "success"
      · simp only [hs] at h₂
        rcases hf : m.fromId with _ | uid
        · rw [hf] at h₂; simp at h₂
        · simp [answer, get_list_of_breeds, hs, hf]
      · simp [answer, get_list_of_breeds, hs]
  | Euro =>
    rcases ef with e | pm
    · simp [answer, get_euro_usd]
    · rcases hl : lookupPair "tether-eurt" pm with _ | v <;>
        simp [answer, get_euro_usd, hl]

/-- C4 amended: PROVIDED that the message of any success response parses
as a URL and, on the catalog path, the inbound message carries a sender
(without those two provisos the handler can panic, see the
counterexample), the command-handling task completes normally: every
fetch and send error is caught and nothing surfaces to the hosting
framework; every fetch error is logged at its point of occurrence; and
every send failure is logged, EXCEPT that of the breed-not-found text
send, which is silently discarded — a failed send always leaves either
the send-error log line in the trace or only the not-found text as the
sole send of the run. -/
theorem C4_amended (c : Command) (m : Message) (env : Env)
    (h₁ : dogUrlParses env = true) (h₂ : senderPresent m env = true) :
    (answer c m env).panicked = false ∧
    (env.dogFetch = Except.error () →
      Effect.logError "Could not find a dog" ∈
        (answer Command.Doggo m env).effects ∧
      ∀ b, Effect.logError "Could not find a dog" ∈
        (answer (Command.Breed b) m env).effects) ∧
    (env.breedsFetch = Except.error () →
      Effect.logError "Could not get the list of breeds" ∈
        (answer Command.Breeds m env).effects) ∧
    (env.euroFetch = Except.error () →
      Effect.logError "Could not fetch the value of Euro" ∈
        (answer Command.Euro m env).effects) ∧
    (env.sendResult = Except.error () →
      (answer c m env).effects.filter isSendEffect ≠ [] →
      (answer c m env).effects.filter isSendErrorLog ≠ [] ∨
      ∃ b, c = Command.Breed b ∧
        (answer c m env).effects.filter isSendEffect
          = [Effect.sendMessage m.chatId (breedNotFoundText b)]) := by
  refine ⟨answer_no_panic c m env h₁ h₂, ?_, ?_, ?_, ?_⟩
  · intro hd
    obtain ⟨df, bf, ef, sr⟩ := env
    simp only [Env.dogFetch] at hd
    subst hd
    exact ⟨by simp [answer, get_random_dog],
      fun b => by simp [answer, get_random_dog_from_breed]⟩
  · intro hb
    obtain ⟨df, bf, ef, sr⟩ := env
    simp only [Env.breedsFetch] at hb
    subst hb
    simp [answer, get_list_of_breeds]
  · intro he
    obtain ⟨df, bf, ef, sr⟩ := env
    simp only [Env.euroFetch] at he
    subst he
    simp [answer, get_euro_usd]
  · intro hs hsend
    obtain ⟨df, bf, ef, sr⟩ := env
    simp only [Env.sendResult] at hs
    subst hs
    cases c with
    | Doggo =>
      rcases df with e | dog
      · simp [answer, get_random_dog, isSendEffect, List.filter] at hsend
      · simp only [dogUrlParses] at h₁
        by_cases hst : dog.status = "success"
        · simp only [hst] at h₁
          rcases hu : urlFromStr dog.message with _ | url
          · rw [hu] at h₁; simp at h₁
          · left
            simp [answer, get_random_dog, hst, hu, sendOutcomeEffects,
              isSendErrorLog, List.filter]
        · simp [answer, get_random_dog, hst, isSendEffect,
            List.filter] at hsend
    | Breeds =>
      rcases bf with e | breeds
      · simp [answer, get_list_of_breeds, isSendEffect,
          List.filter] at hsend
      · simp only [senderPresent] at h₂
        by_cases hst : breeds.status = "success"
        · simp only [hst] at h₂
          rcases hf : m.fromId with _ | uid
          · rw [hf] at h₂; simp at h₂
          · left
            simp [answer, get_list_of_breeds, hst, hf, sendOutcomeEffects,
              isSendErrorLog, List.filter]
        · simp [answer, get_list_of_breeds, hst, isSendEffect,
            List.filter] at hsend
    | Euro =>
      rcases ef with e | pm
      · simp [answer, get_euro_usd, isSendEffect, List.filter] at hsend
      · rcases hl : lookupPair "tether-eurt" pm with _ | v
        · simp [answer, get_euro_usd, hl, isSendEffect,
            List.filter] at hsend
        · left
          simp [answer, get_euro_usd, hl, sendOutcomeEffects,
            isSendErrorLog, List.filter]
    | Breed b =>
      rcases df with e | dog
      · simp [answer, get_random_dog_from_breed, isSendEffect,
          List.filter] at hsend
      · simp only [dogUrlParses] at h₁
        by_cases hst : dog.status = "success"
        · simp only [hst] at h₁
          rcases hu : urlFromStr dog.message with _ | url
          · rw [hu] at h₁; simp at h₁
          · left
            simp [answer, get_random_dog_from_breed, hst, hu,
              sendOutcomeEffects, isSendErrorLog, List.filter]
        · right
          refine ⟨b, rfl, ?_⟩
          simp [answer, get_random_dog_from_breed, hst, isSendEffect,
            List.filter]

theorem C4_amended_witness :
    (answer Command.Doggo msgA envA).panicked = false ∧
    (answer Command.Breeds msgA envBreedsOk).panicked = false ∧
    Effect.logError "Could not find a dog" ∈
      (answer Command.Doggo msgA envEuroMissing).effects :=
  ⟨(C4_amended Command.Doggo msgA envA (by decide) (by decide)).1,
    (C4_amended Command.Breeds msgA envBreedsOk (by decide) (by decide)).1,
    ((C4_amended Command.Doggo msgA envEuroMissing (by decide)
      (by decide)).2.1 rfl).1⟩

/-! ## C5: the silent missing-quote path -/

/-- C5 counterexample: when the price map lacks "tether-eurt" the euro
branch falls through BOTH the `Ok(Some(...))` and the `Err(...)` arms:
no message is sent and the handler does not crash, but — contrary to the
claim — nothing is logged either. -/
theorem C5_counterexample :
    (answer Command.Euro msgA envEuroMissing).effects.filter isLogError
        = [] ∧
    (answer Command.Euro msgA envEuroMissing).effects.filter isSendEffect
        = [] ∧
    (answer Command.Euro msgA envEuroMissing).panicked = false := by
  decide

/-- C5 amended: for the euro command with the "tether-eurt" key missing,
no chat message is sent and the handler does not crash, but no failure
is logged either — the only effect of the whole invocation is the
upstream GET (only a transport error would be logged, on the `Err`
branch). -/
theorem C5_amended (m : Message) (env : Env)
    (pm : List (String × GoingeckoCoinValue))
    (h : env.euroFetch = Except.ok pm)
    (hmiss : lookupPair "tether-eurt" pm = none) :
    (answer Command.Euro m env).effects = [Effect.httpGet coingeckoUrl] ∧
    (answer Command.Euro m env).panicked = false := by
  obtain ⟨df, bf, ef, sr⟩ := env
  simp only [Env.euroFetch] at h
  subst h
  simp [answer, get_euro_usd, hmiss]

theorem C5_amended_witness :
    (answer Command.Euro msgA envEuroMissing).effects
      = [Effect.httpGet coingeckoUrl] :=
  (C5_amended msgA envEuroMissing [("bitcoin", ⟨rat107⟩)] rfl (by decide)).1

/-! ## C6: send-failure logging -/

/-- C6 counterexample: on the breed-not-found path the send of the
not-found text is issued, its result is discarded (the `.ok()` call),
and its failure is NOT logged — contrary to the claim that every send
failure is logged. -/
theorem C6_counterexample :
    Effect.sendMessage 7 (breedNotFoundText "foo") ∈
      (answer (Command.Breed "foo") msgA envBreedNotFound).effects ∧
    (answer (Command.Breed "foo") msgA envBreedNotFound).effects.filter
        isSendErrorLog = [] := by
  decide

/-- C6 amended: when a send fails, the dispatcher logs the send error and
neither retries (each path issues its send exactly once) nor escalates
(the task still completes) — on every path EXCEPT the breed-not-found
text, whose failed send is silently discarded (the `.ok()` call),
neither logged nor retried nor escalated. -/
theorem C6_amended (m : Message) (env : Env)
    (hs : env.sendResult = Except.error ()) :
    (∀ dog url, env.dogFetch = Except.ok dog → dog.status = "success" →
      urlFromStr dog.message = some url →
      (answer Command.Doggo m env).effects.filter isSendEffect
          = [Effect.sendPhoto m.chatId url] ∧
      (answer Command.Doggo m env).effects.filter isSendErrorLog
          = [Effect.logError "Error while sending message"] ∧
      (answer Command.Doggo m env).panicked = false) ∧
    (∀ b dog url, env.dogFetch = Except.ok dog → dog.status = "success" →
      urlFromStr dog.message = some url →
      (answer (Command.Breed b) m env).effects.filter isSendEffect
          = [Effect.sendPhoto m.chatId url] ∧
      (answer (Command.Breed b) m env).effects.filter isSendErrorLog
          = [Effect.logError "Error while sending message"] ∧
      (answer (Command.Breed b) m env).panicked = false) ∧
    (∀ breeds uid, env.breedsFetch = Except.ok breeds →
      breeds.status = "success" → m.fromId = some uid →
      (answer Command.Breeds m env).effects.filter isSendEffect
          = [Effect.sendMessage uid (formatBreeds breeds.message)] ∧
      (answer Command.Breeds m env).effects.filter isSendErrorLog
          = [Effect.logError "Error while sending message"] ∧
      (answer Command.Breeds m env).panicked = false) ∧
    (∀ pm v, env.euroFetch = Except.ok pm →
      lookupPair "tether-eurt" pm = some v →
      (answer Command.Euro m env).effects.filter isSendEffect
          = [Effect.sendMessage m.chatId ("$" ++ fmtF32 v.usd)] ∧
      (answer Command.Euro m env).effects.filter isSendErrorLog
          = [Effect.logError "Error while sending message"] ∧
      (answer Command.Euro m env).panicked = false) ∧
    (∀ b dog, env.dogFetch = Except.ok dog → dog.status ≠ "success" →
      (answer (Command.Breed b) m env).effects.filter isSendEffect
          = [Effect.sendMessage m.chatId (breedNotFoundText b)] ∧
      (answer (Command.Breed b) m env).effects.filter isSendErrorLog
          = [] ∧
      (answer (Command.Breed b) m env).panicked = false) := by
  obtain ⟨df, bf, ef, sr⟩ := env
  simp only [Env.sendResult] at hs
  subst hs
  refine ⟨fun dog url hd hst hu => ?_, fun b dog url hd hst hu => ?_,
    fun breeds uid hb hst hf => ?_, fun pm v he hl => ?_,
    fun b dog hd hst => ?_⟩
  · simp only [Env.dogFetch] at hd
    subst hd
    simp [answer, get_random_dog, hst, hu, sendOutcomeEffects,
      isSendEffect, isSendErrorLog, List.filter]
  · simp only [Env.dogFetch] at hd
    subst hd
    simp [answer, get_random_dog_from_breed, hst, hu, sendOutcomeEffects,
      isSendEffect, isSendErrorLog, List.filter]
  · simp only [Env.breedsFetch] at hb
    subst hb
    simp [answer, get_list_of_breeds, hst, hf, sendOutcomeEffects,
      isSendEffect, isSendErrorLog, List.filter]
  · simp only [Env.euroFetch] at he
    subst he
    simp [answer, get_euro_usd, hl, sendOutcomeEffects, isSendEffect,
      isSendErrorLog, List.filter]
  · simp only [Env.dogFetch] at hd
    subst hd
    simp [answer, get_random_dog_from_breed, hst, sendOutcomeEffects,
      isSendEffect, isSendErrorLog, List.filter]

theorem C6_amended_witness :
    (answer Command.Doggo msgA envSendFail).effects.filter isSendErrorLog
        = [Effect.logError "Error while sending message"] ∧
    (answer (Command.Breed "foo") msgA envBreedNotFound).effects.filter
        isSendErrorLog = [] :=
  ⟨((C6_amended msgA envSendFail rfl).1 ⟨"http://x/y.jpg", "success"⟩
      "http://x/y.jpg" rfl rfl (by decide)).2.1,
    ((C6_amended msgA envBreedNotFound rfl).2.2.2.2 "foo"
      ⟨"no dog", "error"⟩ rfl (by decide)).2.1⟩

/-! ## C7: the doggo photo send -/

/-- C7: for the `doggo` command, a success response carrying
`http://x/y.jpg` leads to exactly one send, a photo send of that URL to
the originating chat. -/
theorem C7_doggo_single_photo (m : Message) (env : Env)
    (h : env.dogFetch = Except.ok ⟨"http://x/y.jpg", "success"⟩) :
    (answer Command.Doggo m env).effects.filter isSendPhoto =
      [Effect.sendPhoto m.chatId "http://x/y.jpg"] ∧
    (answer Command.Doggo m env).effects.filter isSendEffect =
      [Effect.sendPhoto m.chatId "http://x/y.jpg"] ∧
    (answer Command.Doggo m env).panicked = false := by
  have hu : urlFromStr "http://x/y.jpg" = some "http://x/y.jpg" := by decide
  obtain ⟨df, bf, ef, sr⟩ := env
  simp only [Env.dogFetch] at h
  subst h
  rcases sr with e | u <;>
    simp [answer, get_random_dog, sendOutcomeEffects, hu, isSendPhoto,
      isSendEffect, List.filter]

theorem C7_doggo_single_photo_witness :
    (answer Command.Doggo msgA envA).effects.filter isSendPhoto =
      [Effect.sendPhoto 7 "http://x/y.jpg"] :=
  (C7_doggo_single_photo msgA envA rfl).1

/-! ## C8: the euro text send -/

/-- C8: for the `euro` command, a response map carrying usd value v at
"tether-eurt" leads to exactly one send, a text send of "$" followed by
the rendered value; at v = 1.07 the text is "$1.07". -/
theorem C8_euro_send (m : Message) (env : Env)
    (pm : List (String × GoingeckoCoinValue)) (v : GoingeckoCoinValue)
    (h : env.euroFetch = Except.ok pm)
    (hv : lookupPair "tether-eurt" pm = some v) :
    (answer Command.Euro m env).effects.filter isSendMessage =
      [Effect.sendMessage m.chatId ("$" ++ fmtF32 v.usd)] ∧
    (answer Command.Euro m env).effects.filter isSendEffect =
      [Effect.sendMessage m.chatId ("$" ++ fmtF32 v.usd)] ∧
    rat107 = 1.07 ∧ "$" ++ fmtF32 rat107 = "$1.07" := by
  obtain ⟨df, bf, ef, sr⟩ := env
  simp only [Env.euroFetch] at h
  subst h
  refine ⟨?_, ?_, rat107_eq, by decide⟩ <;>
    rcases sr with e | u <;>
      simp [answer, get_euro_usd, sendOutcomeEffects, hv, isSendMessage,
        isSendEffect, List.filter]

theorem C8_euro_send_witness :
    (answer Command.Euro msgA envEuro107).effects.filter isSendMessage =
      [Effect.sendMessage 7 "$1.07"] := by
  have h := (C8_euro_send msgA envEuro107 [("tether-eurt", ⟨rat107⟩)]
    ⟨rat107⟩ rfl (by decide)).1
  rwa [show ("$" ++ fmtF32 (⟨rat107⟩ : GoingeckoCoinValue).usd) = "$1.07"
    from by decide, show msgA.chatId = 7 from rfl] at h

/-! ## C9: idempotence of the normalizer -/

theorem char_toNat_ofNat {n : Nat} (h : n.isValidChar) :
    (Char.ofNat n).toNat = n := by
  simp [Char.ofNat, dif_pos h, Char.ofNatAux, Char.toNat, UInt32.toNat,
    BitVec.toNat_ofNatLt]

/-- Lowercasing is idempotent: a lowered uppercase letter lands in the
lowercase range, outside the uppercase range. -/
theorem rsToLower_idem (c : Char) : rsToLower (rsToLower c) = rsToLower c := by
  by_cases h : 65 ≤ c.toNat ∧ c.toNat ≤ 90
  · have h₁ : rsToLower c = Char.ofNat (c.toNat + 32) := by
      rw [rsToLower, if_pos h]
    have ht : (Char.ofNat (c.toNat + 32)).toNat = c.toNat + 32 :=
      char_toNat_ofNat (Or.inl (by omega))
    rw [h₁, rsToLower, ht, if_neg (by omega)]
  · have h₁ : rsToLower c = c := by rw [rsToLower, if_neg h]
    rw [h₁]
    exact h₁

/-- Fold invariant: every character of the word being built or of a
completed word comes from the input and is not whitespace. -/
theorem foldr_splitStep_chars (l : List Char) :
    (∀ c ∈ (l.foldr splitStep ([], [])).1,
      c ∈ l ∧ rsWhitespace c = false) ∧
    ∀ w ∈ (l.foldr splitStep ([], [])).2, ∀ c ∈ w,
      c ∈ l ∧ rsWhitespace c = false := by
  induction l with
  | nil => constructor <;> simp
  | cons a l ih =>
    obtain ⟨ih₁, ih₂⟩ := ih
    have hstep : (a :: l).foldr splitStep ([], [])
        = splitStep a (l.foldr splitStep ([], [])) := rfl
    rw [hstep, splitStep]
    by_cases ha : rsWhitespace a = true
    · rw [if_pos ha]
      refine ⟨by simp, fun w hw c hc => ?_⟩
      by_cases hq : (l.foldr splitStep ([], [])).1.isEmpty
      · rw [if_pos hq] at hw
        obtain ⟨hm, hws⟩ := ih₂ w hw c hc
        exact ⟨List.mem_cons_of_mem a hm, hws⟩
      · rw [if_neg hq] at hw
        rcases List.mem_cons.mp hw with rfl | hw₁
        · obtain ⟨hm, hws⟩ := ih₁ c hc
          exact ⟨List.mem_cons_of_mem a hm, hws⟩
        · obtain ⟨hm, hws⟩ := ih₂ w hw₁ c hc
          exact ⟨List.mem_cons_of_mem a hm, hws⟩
    · rw [if_neg ha]
      refine ⟨fun c hc => ?_, fun w hw c hc => ?_⟩
      · rcases List.mem_cons.mp hc with rfl | hc₁
        · exact ⟨List.mem_cons_self c l, by simpa using ha⟩
        · obtain ⟨hm, hws⟩ := ih₁ c hc₁
          exact ⟨List.mem_cons_of_mem a hm, hws⟩
      · obtain ⟨hm, hws⟩ := ih₂ w hw c hc
        exact ⟨List.mem_cons_of_mem a hm, hws⟩

/-- Every character of every split word comes from the input and is not
whitespace. -/
theorem splitWhitespace_chars {l w : List Char}
    (hw : w ∈ splitWhitespace l) :
    ∀ c ∈ w, c ∈ l ∧ rsWhitespace c = false := by
  have h := foldr_splitStep_chars l
  simp only [splitWhitespace] at hw
  by_cases hq : (l.foldr splitStep ([], [])).1.isEmpty
  · rw [if_pos hq] at hw
    exact h.2 w hw
  · rw [if_neg hq] at hw
    rcases List.mem_cons.mp hw with rfl | hw₁
    exacts [h.1, h.2 w hw₁]

/-- A character of a slash-join is a slash or a character of a word. -/
theorem mem_joinSlash {ws : List (List Char)} {c : Char}
    (h : c ∈ joinSlash ws) : c = '/' ∨ ∃ w ∈ ws, c ∈ w := by
  induction ws with
  | nil => simp [joinSlash] at h
  | cons w ws ih =>
    cases ws with
    | nil =>
      rw [joinSlash] at h
      exact Or.inr ⟨w, List.mem_cons_self w [], h⟩
    | cons w₂ ws₂ =>
      have hj : joinSlash (w :: w₂ :: ws₂)
          = w ++ '/' :: joinSlash (w₂ :: ws₂) := rfl
      rw [hj] at h
      rcases List.mem_append.mp h with h₁ | h₂
      · exact Or.inr ⟨w, List.mem_cons_self w _, h₁⟩
      · rcases List.mem_cons.mp h₂ with rfl | h₃
        · exact Or.inl rfl
        · rcases ih h₃ with hc | ⟨w₃, hw₃, hc⟩
          · exact Or.inl hc
          · exact Or.inr ⟨w₃, List.mem_cons_of_mem w hw₃, hc⟩

/-- Every character of the normalized output is non-whitespace and fixed
by lowercasing (it is a slash or a character of the lowered input). -/
theorem normalize_char_fix (l : List Char) :
    ∀ c ∈ normalizeBreedL l, rsWhitespace c = false ∧ rsToLower c = c := by
  intro c hc
  rw [normalizeBreedL] at hc
  rcases mem_joinSlash hc with rfl | ⟨w, hw, hcw⟩
  · exact ⟨by decide, by decide⟩
  · rw [List.mem_reverse] at hw
    obtain ⟨hm, hws⟩ := splitWhitespace_chars hw c hcw
    obtain ⟨c₀, _, rfl⟩ := List.mem_map.mp hm
    exact ⟨hws, rsToLower_idem c₀⟩

/-- Splitting a list with no whitespace leaves it as the single word
being built. -/
theorem foldr_splitStep_no_ws {l : List Char}
    (h : ∀ c ∈ l, rsWhitespace c = false) :
    l.foldr splitStep ([], []) = (l, []) := by
  induction l with
  | nil => rfl
  | cons a l ih =>
    have ha := h a (List.mem_cons_self a l)
    have ih₁ := ih (fun c hc => h c (List.mem_cons_of_mem _ hc))
    simp [List.foldr, ih₁, splitStep, ha]

/-- Splitting a nonempty whitespace-free list yields that single word. -/
theorem splitWhitespace_no_ws {l : List Char}
    (h : ∀ c ∈ l, rsWhitespace c = false) (hne : l ≠ []) :
    splitWhitespace l = [l] := by
  cases l with
  | nil => exact absurd rfl hne
  | cons a l => simp [splitWhitespace, foldr_splitStep_no_ws h]

/-- The normalizer is idempotent at the character-list level. -/
theorem normalizeBreedL_idem (l : List Char) :
    normalizeBreedL (normalizeBreedL l) = normalizeBreedL l := by
  have hfix := normalize_char_fix l
  have hmap : (normalizeBreedL l).map rsToLower = normalizeBreedL l := by
    rw [List.map_congr_left (fun c hc => (hfix c hc).2)]
    simp
  rcases hr : normalizeBreedL l with _ | ⟨a, r⟩
  · rfl
  · rw [hr] at hfix hmap
    rw [normalizeBreedL, hmap,
      splitWhitespace_no_ws (fun c hc => (hfix c hc).1) (by simp)]
    rfl

/-- C9: the breed-name normalizer is idempotent; its output contains no
whitespace character and no character changed by lowercasing (in
particular no uppercase ASCII letter). -/
theorem C9_normalizer_idempotent (s : String) :
    normalizeBreed (normalizeBreed s) = normalizeBreed s ∧
    ∀ c ∈ (normalizeBreed s).data,
      rsWhitespace c = false ∧ rsToLower c = c := by
  constructor
  · show (⟨normalizeBreedL (normalizeBreedL s.data)⟩ : String)
        = ⟨normalizeBreedL s.data⟩
    rw [normalizeBreedL_idem]
  · exact normalize_char_fix s.data

theorem C9_normalizer_idempotent_witness :
    normalizeBreed (normalizeBreed "Border Collie")
        = normalizeBreed "Border Collie" ∧
    (rsWhitespace 'c' = false ∧ rsToLower 'c' = 'c') :=
  ⟨(C9_normalizer_idempotent "Border Collie").1,
    (C9_normalizer_idempotent "Border Collie").2 'c' (by decide)⟩

/-! ## C10: whitespace-only breed arguments -/

/-- A Unicode whitespace character is outside the uppercase ASCII range,
so lowercasing fixes it. -/
theorem rsToLower_of_whitespace {c : Char} (h : rsWhitespace c = true) :
    rsToLower c = c := by
  have hn : ¬ (65 ≤ c.toNat ∧ c.toNat ≤ 90) := by
    simp [rsWhitespace] at h
    omega
  simp [rsToLower, hn]

/-- Splitting a list of whitespace characters builds nothing. -/
theorem foldr_splitStep_all_ws {l : List Char}
    (h : ∀ c ∈ l, rsWhitespace c = true) :
    l.foldr splitStep ([], []) = ([], []) := by
  induction l with
  | nil => rfl
  | cons c cs ih =>
    have hc := h c (List.mem_cons_self c cs)
    have ih₁ := ih (fun x hx => h x (List.mem_cons_of_mem _ hx))
    simp [List.foldr, ih₁, splitStep, hc]

/-- Splitting a whitespace-only list yields no words. -/
theorem splitWhitespace_all_ws {l : List Char}
    (h : ∀ c ∈ l, rsWhitespace c = true) : splitWhitespace l = [] := by
  simp [splitWhitespace, foldr_splitStep_all_ws h]

/-- The normalizer sends every whitespace-only (or empty) string to the
empty path segment. -/
theorem normalizeBreed_all_ws (s : String)
    (h : ∀ c ∈ s.data, rsWhitespace c = true) : normalizeBreed s = "" := by
  have hmap : s.data.map rsToLower = s.data := by
    rw [List.map_congr_left (fun c hc => rsToLower_of_whitespace (h c hc))]
    simp
  unfold normalizeBreed normalizeBreedL
  rw [hmap, splitWhitespace_all_ws h]
  rfl

/-- C10: a breed argument that is empty or whitespace-only normalizes to
the empty segment, and the `breed` command still issues its GET, to the
malformed URL `https://dog.ceo/api/breed//images/random`, instead of
rejecting the argument before the network call. -/
theorem C10_whitespace_breed (s : String)
    (hws : ∀ c ∈ s.data, rsWhitespace c = true) :
    normalizeBreed s = "" ∧
    ∀ (m : Message) (env : Env),
      Effect.httpGet "https://dog.ceo/api/breed//images/random" ∈
        (answer (Command.Breed s) m env).effects := by
  have hz := normalizeBreed_all_ws s hws
  refine ⟨hz, fun m env => ?_⟩
  have h := breed_httpGet_mem s m env
  rw [breedRequestUrl, hz] at h
  rwa [show ("https://dog.ceo/api/breed/" ++ "" ++ "/images/random") =
    "https://dog.ceo/api/breed//images/random" from by decide] at h

theorem C10_whitespace_breed_witness :
    normalizeBreed " " = "" ∧ normalizeBreed "" = "" ∧
    Effect.httpGet "https://dog.ceo/api/breed//images/random" ∈
      (answer (Command.Breed " ") msgA envA).effects :=
  ⟨(C10_whitespace_breed " " (by decide)).1,
    (C10_whitespace_breed "" (by decide)).1,
    (C10_whitespace_breed " " (by decide)).2 msgA envA⟩
